import Mathlib

/-!
# Verification of the MindNest session time-tracking accumulator

A shallow embedding of `src/app.py`, centred on `update_time_spent`
(the Time Accumulator), plus the email normalisation performed by the
`register` and `login` routes.

Modelling conventions:
* Timestamps (`datetime.utcnow().timestamp()`) are modelled as integer
  seconds (`Int`); the Python float floor-division `elapsed_seconds // 60`
  followed by `int(...)` is `Int.fdiv _ 60` on integer inputs.
* The Flask session slot `session["session_start"]` and the persisted
  column `user.total_minutes` (nullable integer) are `Option Int`.
* `db.session.commit()` may fail; `db.session.rollback()` restores the
  in-memory user object to its persisted value, while the Flask session
  dictionary is NOT part of the database transaction and keeps whatever
  was written to it.  A tick is therefore a function of the commit
  outcome, passed as a `Bool`.
* Strings handled by `email.lower()` / `.strip()` are modelled as
  `List Char`, with ASCII lower-casing and whitespace stripping that
  agree with Python on the ASCII inputs considered here.
-/

/-- The observable per-user accumulator state: the persisted
`user.total_minutes` column (nullable) and the Flask session slot
`session["session_start"]` (absent or a timestamp). -/
structure AccState where
  total_minutes : Option Int
  session_start : Option Int
deriving DecidableEq, Repr

/-- Embedding of `update_time_spent` (src/app.py lines 112-130).

```
def update_time_spent():
    if not current_user.is_authenticated:
        return
    start = session.get("session_start")
    now = datetime.utcnow().timestamp()
    if start is None:
        session["session_start"] = now
        return
    elapsed_seconds = now - float(start)
    minutes = int(elapsed_seconds // 60)
    if minutes >= 1:
        if current_user.total_minutes is None:
            current_user.total_minutes = 0
        current_user.total_minutes += minutes
        session["session_start"] = now
        try:
            db.session.commit()
        except Exception:
            db.session.rollback()
```

On commit failure the rollback restores the persisted total, but the
assignment `session["session_start"] = now` made just before the commit
is not undone (the Flask session is not transactional). -/
def update_time_spent (is_authenticated : Bool) (now : Int) (commitOk : Bool)
    (s : AccState) : AccState :=
  if is_authenticated = false then s
  else
    match s.session_start with
    | none => { s with session_start := some now }
    | some start =>
      let elapsed_seconds : Int := now - start
      let minutes : Int := Int.fdiv elapsed_seconds 60
      if 1 ≤ minutes then
        let credited : Int := s.total_minutes.getD 0 + minutes
        if commitOk then
          { total_minutes := some credited, session_start := some now }
        else
          { total_minutes := s.total_minutes, session_start := some now }
      else s

/-- A sequence of authenticated ticks with successful commits, applied
in order (each list element is the clock value of one tick). -/
def runTicks (ts : List Int) (s : AccState) : AccState :=
  ts.foldl (fun st t => update_time_spent true t true st) s

/-- The operations of the system that touch the `AccState` of a user:
ticks (`update_time_spent`, called from `dashboard` and `profile`),
a successful `login` (sets `session["session_start"] = now`, line 178),
a failed `login` (no session mutation), and `logout`
(`session.pop("session_start", None)`, line 188).  No other route in
`src/app.py` reads or writes `total_minutes` or `session_start`. -/
inductive Op
  | tick (is_authenticated : Bool) (now : Int) (commitOk : Bool)
  | loginSuccess (now : Int)
  | loginFailure
  | logout

/-- One step of the system on the accumulator state of a user. -/
def step (op : Op) (s : AccState) : AccState :=
  match op with
  | .tick a n ok => update_time_spent a n ok s
  | .loginSuccess n => { s with session_start := some n }
  | .loginFailure => s
  | .logout => { s with session_start := none }

/-- ASCII lower-casing of one character, as the Python `str.lower()` acts
on the ASCII range (the inputs considered here). -/
def pyLowerChar (c : Char) : Char := c.toLower

/-- `email.lower()` on a character-list model of strings. -/
def pyLower (s : List Char) : List Char := s.map pyLowerChar

/-- `str.strip()`: drop leading and trailing whitespace. -/
def pyStrip (s : List Char) : List Char :=
  ((s.dropWhile Char.isWhitespace).reverse.dropWhile Char.isWhitespace).reverse

/-- Outcome of the `register` route (src/app.py lines 140-165). -/
inductive RegOutcome
  | missing_fields
  | password_mismatch
  | already_registered
  | created
deriving DecidableEq, Repr

/-- Embedding of the POST branch of the `register` route, restricted to the
data it touches: the user directory is the list of stored emails.

```
if not name or not email or not password: ...
if password != confirm: ...
existing = User.query.filter_by(email=email.lower()).first()
if existing: ...
user = User(name=name.strip(), email=email.lower().strip())
db.session.add(user); db.session.commit()
```

The duplicate check queries with `email.lower()`, while the stored
email is `email.lower().strip()`. -/
def register (dir : List (List Char)) (name email password confirm : List Char) :
    RegOutcome × List (List Char) :=
  if name = [] ∨ email = [] ∨ password = [] then (.missing_fields, dir)
  else if password ≠ confirm then (.password_mismatch, dir)
  else if dir.contains (pyLower email) then (.already_registered, dir)
  else (.created, pyStrip (pyLower email) :: dir)

/-- Embedding of the user lookup in the `login` route (src/app.py line 175):
`User.query.filter_by(email=email.lower()).first()`. -/
def login_lookup (dir : List (List Char)) (email : List Char) : Option (List Char) :=
  dir.find? (fun stored => stored == pyLower email)

/-! ### Arithmetic helpers about Python floor division by 60 -/

theorem sixty_mul_fdiv_le (x : Int) : 60 * Int.fdiv x 60 ≤ x := by
  rw [Int.fdiv_eq_ediv _ (by norm_num)]
  omega

theorem le_fdiv_of_mul_le (k x : Int) (h : 60 * k ≤ x) : k ≤ Int.fdiv x 60 := by
  rw [Int.fdiv_eq_ediv _ (by norm_num)]
  omega

theorem fdiv_lt_one_of_lt_sixty (x : Int) (h : x < 60) : Int.fdiv x 60 < 1 := by
  rw [Int.fdiv_eq_ediv _ (by norm_num)]
  omega

/-! ### Claims -/

/-- C6: when the session checkpoint is absent, an authenticated tick
writes the current instant as the checkpoint and credits no time. -/
theorem first_tick_sets_baseline (tm : Option Int) (now : Int) (ok : Bool) :
    update_time_spent true now ok ⟨tm, none⟩ = ⟨tm, some now⟩ := by
  simp [update_time_spent]

/-- C5: a tick whose clock reads earlier than the checkpoint (negative
elapsed seconds) credits 0 minutes and leaves the state unchanged; the
embedding is a total function, so no error is raised. -/
theorem negative_elapsed_credits_nothing (tm : Option Int) (start now : Int)
    (ok : Bool) (h : now < start) :
    update_time_spent true now ok ⟨tm, some start⟩ = ⟨tm, some start⟩ := by
  have hm : Int.fdiv (now - start) 60 < 1 :=
    fdiv_lt_one_of_lt_sixty _ (by omega)
  simp [update_time_spent]
  omega

/-- Witness for C5 at `start = 100`, `now = 50`. -/
theorem negative_elapsed_credits_nothing_witness :
    (50 : Int) < 100 ∧
      update_time_spent true 50 true ⟨some 3, some 100⟩ = ⟨some 3, some 100⟩ :=
  ⟨by decide, negative_elapsed_credits_nothing (some 3) 100 50 true (by decide)⟩

/-- C7: a tick with `0 ≤ elapsed_seconds < 60` modifies neither
`total_minutes` nor the session checkpoint. -/
theorem sub_minute_tick_is_noop (tm : Option Int) (start now : Int) (ok : Bool)
    (h0 : start ≤ now) (h1 : now - start < 60) :
    update_time_spent true now ok ⟨tm, some start⟩ = ⟨tm, some start⟩ := by
  have hm : Int.fdiv (now - start) 60 < 1 :=
    fdiv_lt_one_of_lt_sixty _ h1
  simp [update_time_spent]
  omega

/-- Witness for C7 at `start = 100`, `now = 159`. -/
theorem sub_minute_tick_is_noop_witness :
    (100 : Int) ≤ 159 ∧ (159 : Int) - 100 < 60 ∧
      update_time_spent true 159 false ⟨some 3, some 100⟩ = ⟨some 3, some 100⟩ :=
  ⟨by decide, by decide, sub_minute_tick_is_noop (some 3) 100 159 false (by decide) (by decide)⟩

/-- C10: when `total_minutes` is absent (NULL) and at least one whole
minute has elapsed, the tick treats the absent total as 0 and sets it
to exactly the credited minutes (no error). -/
theorem null_total_treated_as_zero (start now : Int)
    (h : 1 ≤ Int.fdiv (now - start) 60) :
    update_time_spent true now true ⟨none, some start⟩ =
      ⟨some (Int.fdiv (now - start) 60), some now⟩ := by
  simp [update_time_spent, h]

/-- Witness for C10 at `start = 0`, `now = 60`. -/
theorem null_total_treated_as_zero_witness :
    (1 : Int) ≤ Int.fdiv (60 - 0) 60 ∧
      update_time_spent true 60 true ⟨none, some 0⟩ =
        ⟨some (Int.fdiv (60 - 0) 60), some 60⟩ :=
  ⟨by decide, null_total_treated_as_zero 0 60 (by decide)⟩

/-- C1 counterexample: with checkpoint 0 and a tick at `now = 125`
(elapsed exactly 125 s), the code sets the checkpoint to the current
instant 125, not to `0 + 120` as the claim states: the 5-second
remainder is discarded, not preserved. -/
theorem remainder_discarded_counterexample :
    (update_time_spent true 125 true ⟨some 0, some 0⟩).session_start = some 125 ∧
      some (125 : Int) ≠ some ((0 : Int) + 120) := by
  constructor
  · decide
  · decide

/-- C1 amended: a tick with elapsed seconds exactly 125 credits exactly
2 minutes and advances the checkpoint to the current instant (i.e. by
125 seconds, discarding the 5-second remainder). -/
theorem tick_125_credits_two_minutes (tm : Option Int) (start now : Int)
    (h : now - start = 125) :
    update_time_spent true now true ⟨tm, some start⟩ =
      ⟨some (tm.getD 0 + 2), some now⟩ := by
  have hm : Int.fdiv (now - start) 60 = 2 := by
    rw [h]; decide
  simp [update_time_spent, hm]

/-- Witness for the amended C1 at `start = 0`, `now = 125`. -/
theorem tick_125_credits_two_minutes_witness :
    (125 : Int) - 0 = 125 ∧
      update_time_spent true 125 true ⟨some 7, some 0⟩ = ⟨some 9, some 125⟩ :=
  ⟨by decide, tick_125_credits_two_minutes (some 7) 0 125 (by decide)⟩

/-- C3 counterexample: with persisted total 7, checkpoint 0 and a tick
at `now = 125` whose commit fails, the persisted total stays 7 (the
rollback works) but the checkpoint is advanced to 125 — the checkpoint
advance IS observed by future ticks, so the commit is not atomic in the
sense claimed (the new checkpoint 125 differs from the pre-tick
checkpoint 0). -/
theorem failed_commit_advances_checkpoint_counterexample :
    update_time_spent true 125 false ⟨some 7, some 0⟩ = ⟨some 7, some 125⟩ ∧
      some (125 : Int) ≠ some (0 : Int) := by
  constructor
  · decide
  · decide

/-- C3 amended: if the commit fails on a crediting tick, the persisted
`total_minutes` is unchanged (rolled back), but the session checkpoint
still advances to the current instant, so the elapsed time of that tick
is lost rather than deferred to a later tick. -/
theorem failed_commit_keeps_total_loses_time (tm : Option Int) (start now : Int)
    (h : 1 ≤ Int.fdiv (now - start) 60) :
    update_time_spent true now false ⟨tm, some start⟩ = ⟨tm, some now⟩ := by
  simp [update_time_spent, h]

/-- Witness for the amended C3 at `start = 0`, `now = 125`. -/
theorem failed_commit_keeps_total_loses_time_witness :
    (1 : Int) ≤ Int.fdiv (125 - 0) 60 ∧
      update_time_spent true 125 false ⟨some 7, some 0⟩ = ⟨some 7, some 125⟩ :=
  ⟨by decide, failed_commit_keeps_total_loses_time (some 7) 0 125 (by decide)⟩

/-- C4: across every operation of the system (ticks with any
authentication and commit outcome, successful and failed logins,
logout), the effective total of the user (`total_minutes`, read as 0 when
NULL, exactly as `current_user.total_minutes or 0` reads it) never
decreases; and only the Time Accumulator mutates it — login, failed
login and logout leave the `total_minutes` field identical. -/
theorem total_minutes_monotone (op : Op) (s : AccState) :
    s.total_minutes.getD 0 ≤ (step op s).total_minutes.getD 0 ∧
      (∀ n, (step (Op.loginSuccess n) s).total_minutes = s.total_minutes) ∧
      (step Op.loginFailure s).total_minutes = s.total_minutes ∧
      (step Op.logout s).total_minutes = s.total_minutes := by
  refine ⟨?_, fun n => rfl, rfl, rfl⟩
  cases op with
  | loginSuccess n => exact le_refl _
  | loginFailure => exact le_refl _
  | logout => exact le_refl _
  | tick a n ok =>
    cases a with
    | false => simp [step, update_time_spent]
    | true =>
      cases hs : s.session_start with
      | none => simp [step, update_time_spent, hs]
      | some start =>
        by_cases hm : 1 ≤ Int.fdiv (n - start) 60
        · cases ok with
          | true => simp [step, update_time_spent, hs, hm]; omega
          | false => simp [step, update_time_spent, hs, hm]
        · simp [step, update_time_spent, hs, hm]

/-- C8: logout removes the session checkpoint; after a subsequent
successful login at `loginT`, a first tick at `tickT` with less than a
whole minute elapsed credits nothing and keeps the login baseline. -/
theorem logout_login_fresh_baseline (s : AccState) (loginT tickT : Int)
    (ok : Bool) (h : tickT - loginT < 60) :
    (step Op.logout s).session_start = none ∧
      update_time_spent true tickT ok (step (Op.loginSuccess loginT) (step Op.logout s)) =
        ⟨s.total_minutes, some loginT⟩ := by
  have hm : Int.fdiv (tickT - loginT) 60 < 1 :=
    fdiv_lt_one_of_lt_sixty _ h
  constructor
  · rfl
  · simp [step, update_time_spent]
    omega

/-- In a `≤`-sorted list, every member is at most the last element. -/
theorem mem_le_of_pairwise_getLast (l : List Int) :
    ∀ (tlast x : Int), List.Pairwise (fun a b => a ≤ b) l →
      l.getLast? = some tlast → x ∈ l → x ≤ tlast := by
  induction l with
  | nil => intro tlast x _ _ hx; cases hx
  | cons a l ih =>
    intro tlast x hp hlast hx
    cases l with
    | nil =>
      simp at hlast hx
      omega
    | cons b l' =>
      rw [List.getLast?_cons_cons] at hlast
      rcases List.mem_cons.mp hx with h | h
      · subst h
        exact List.rel_of_pairwise_cons hp (List.mem_of_mem_getLast? hlast)
      · exact ih tlast x (List.pairwise_cons.mp hp).2 hlast h

/-- Invariant of a run of crediting ticks: starting from total `T` and
checkpoint `c`, after any `≤`-sorted sequence of ticks at times ≥ `c`
the state is `⟨some T', some c'⟩` with `T ≤ T'`, `c ≤ c'`,
`60 * (T' - T) ≤ c' - c` (at most one minute credited per 60 elapsed
seconds reflected in checkpoint movement), and the final checkpoint is
either the initial one or one of the tick instants. -/
theorem runTicks_total_bound (ts : List Int) :
    ∀ (c T : Int), List.Pairwise (fun a b => a ≤ b) (c :: ts) →
      ∃ T' c', runTicks ts ⟨some T, some c⟩ = ⟨some T', some c'⟩ ∧
        T ≤ T' ∧ c ≤ c' ∧ 60 * (T' - T) ≤ c' - c ∧ (c' = c ∨ c' ∈ ts) := by
  induction ts with
  | nil =>
    intro c T _
    exact ⟨T, c, rfl, le_refl T, le_refl c, by omega, Or.inl rfl⟩
  | cons t rest ih =>
    intro c T hp
    have hct : c ≤ t := List.rel_of_pairwise_cons hp (List.mem_cons_self t rest)
    have hp' : List.Pairwise (fun a b => a ≤ b) (t :: rest) :=
      (List.pairwise_cons.mp hp).2
    have hstep : runTicks (t :: rest) ⟨some T, some c⟩ =
        runTicks rest (update_time_spent true t true ⟨some T, some c⟩) := rfl
    by_cases hm : 1 ≤ Int.fdiv (t - c) 60
    · have htick : update_time_spent true t true ⟨some T, some c⟩ =
          ⟨some (T + Int.fdiv (t - c) 60), some t⟩ := by
        simp [update_time_spent, hm]
      obtain ⟨T', c', hrun, hT, hc, hbound, hmem⟩ := ih t (T + Int.fdiv (t - c) 60) hp'
      have h60 : 60 * Int.fdiv (t - c) 60 ≤ t - c := sixty_mul_fdiv_le _
      refine ⟨T', c', ?_, by omega, by omega, by omega, ?_⟩
      · rw [hstep, htick, hrun]
      · rcases hmem with h | h
        · exact Or.inr (h ▸ List.mem_cons_self t rest)
        · exact Or.inr (List.mem_cons_of_mem t h)
    · have htick : update_time_spent true t true ⟨some T, some c⟩ =
          ⟨some T, some c⟩ := by
        simp [update_time_spent, hm]
      have hsub : (c :: rest).Sublist (c :: t :: rest) :=
        List.Sublist.cons₂ c (List.Sublist.cons t (List.Sublist.refl rest))
      have hp'' : List.Pairwise (fun a b => a ≤ b) (c :: rest) := hp.sublist hsub
      obtain ⟨T', c', hrun, hT, hc, hbound, hmem⟩ := ih c T hp''
      refine ⟨T', c', ?_, hT, hc, hbound, ?_⟩
      · rw [hstep, htick, hrun]
      · rcases hmem with h | h
        · exact Or.inl h
        · exact Or.inr (List.mem_cons_of_mem t h)

/-- C2 counterexample: starting from total 0 and a fresh checkpoint at
0, the strictly increasing tick sequence 90, 180 (successful commits)
yields `total_minutes = 2`, while `floor(total_elapsed / 60) =
floor(180 / 60) = 3`: the equality claimed does not hold, because a
crediting tick advances the checkpoint to `now` and discards the
sub-minute remainder (here 30 s at the first tick). -/
theorem run_total_equality_counterexample :
    (runTicks [90, 180] ⟨some 0, some 0⟩).total_minutes = some 2 ∧
      Int.fdiv (180 - 0) 60 = 3 ∧ (2 : Int) ≠ 3 := by
  refine ⟨?_, ?_, ?_⟩
  · decide
  · decide
  · decide

/-- C2 amended: for every `≤`-sorted (in particular every strictly
increasing) sequence of ticks starting from a fresh checkpoint `c` and
total `T`, with all commits succeeding, the total credited over the run
is AT MOST `floor((t_last - c) / 60)` — equality can fail because
sub-minute remainders are discarded at each crediting tick. -/
theorem run_total_at_most_floor (ts : List Int) (c T tlast : Int)
    (hlast : ts.getLast? = some tlast)
    (hp : List.Pairwise (fun a b => a ≤ b) (c :: ts)) :
    (runTicks ts ⟨some T, some c⟩).total_minutes.getD 0 - T ≤
      Int.fdiv (tlast - c) 60 := by
  obtain ⟨T', c', hrun, hT, hc, hbound, hmem⟩ := runTicks_total_bound ts c T hp
  have hlmem : tlast ∈ ts := List.mem_of_mem_getLast? hlast
  have hclast : c ≤ tlast := List.rel_of_pairwise_cons hp hlmem
  have hc'last : c' ≤ tlast := by
    rcases hmem with h | h
    · omega
    · exact mem_le_of_pairwise_getLast ts tlast c' (List.pairwise_cons.mp hp).2 hlast h
  have : T' - T ≤ Int.fdiv (tlast - c) 60 :=
    le_fdiv_of_mul_le _ _ (by omega)
  rw [hrun]
  simpa using this

/-- Witness for the amended C2: ticks at 30 and 90 from checkpoint 0
and total 5 credit 1 minute, and `1 ≤ floor(90 / 60) = 1`. -/
theorem run_total_at_most_floor_witness :
    ([30, 90] : List Int).getLast? = some 90 ∧
      List.Pairwise (fun a b => a ≤ b) ((0 : Int) :: [30, 90]) ∧
      (runTicks [30, 90] ⟨some 5, some 0⟩).total_minutes.getD 0 - 5 ≤
        Int.fdiv (90 - 0) 60 :=
  ⟨by decide, by decide, run_total_at_most_floor [30, 90] 0 5 90 (by decide) (by decide)⟩

/-- Witness for C8: logout from a live session, login at `t = 1000`,
tick at `t = 1030`. -/
theorem logout_login_fresh_baseline_witness :
    (1030 : Int) - 1000 < 60 ∧
      (step Op.logout ⟨some 5, some 200⟩).session_start = none ∧
      update_time_spent true 1030 true
          (step (Op.loginSuccess 1000) (step Op.logout ⟨some 5, some 200⟩)) =
        ⟨some 5, some 1000⟩ :=
  ⟨by decide, logout_login_fresh_baseline ⟨some 5, some 200⟩ 1000 1030 true (by decide)⟩

/-- C9 counterexample: for the input email `"A@b.com "` (trailing
space), registration stores `"a@b.com"`, which is NOT the lower-cased
email `"a@b.com "` — the stored form is lower-cased AND stripped.  As a
consequence, a later login typed exactly as at registration fails to
find the user, because the login lookup uses the lower-cased but
unstripped form. -/
theorem stored_email_not_lowercased_input :
    register [] "n".toList "A@b.com ".toList "p".toList "p".toList =
      (RegOutcome.created, ["a@b.com".toList]) ∧
      "a@b.com".toList ≠ pyLower "A@b.com ".toList ∧
      login_lookup ["a@b.com".toList] "A@b.com ".toList = none := by
  refine ⟨?_, ?_, ?_⟩
  · decide
  · decide
  · decide

/-- C9 amended: registration stores the lower-cased AND
whitespace-stripped email, while the duplicate check and the login
lookup query with the lower-cased (unstripped) form; consequently, for
emails with no surrounding whitespace (after lower-casing), a
successful registration can be followed by a login under any case
variant of the email and the lookup finds the stored user. -/
theorem email_case_insensitive_auth (dir : List (List Char))
    (name email password confirm email2 : List Char)
    (hname : name ≠ []) (hemail : email ≠ []) (hpw : password ≠ [])
    (hconfirm : password = confirm)
    (hdup : dir.contains (pyLower email) = false)
    (hclean : pyStrip (pyLower email) = pyLower email)
    (hcase : pyLower email2 = pyLower email) :
    (register dir name email password confirm).1 = RegOutcome.created ∧
      login_lookup (register dir name email password confirm).2 email2 =
        some (pyLower email) := by
  have hreg : register dir name email password confirm =
      (RegOutcome.created, pyLower email :: dir) := by
    rw [register.eq_def]
    rw [if_neg (by simp [hname, hemail, hpw])]
    rw [if_neg (by simp [hconfirm])]
    rw [if_neg (by simpa using hdup)]
    rw [hclean]
  refine ⟨by rw [hreg], ?_⟩
  rw [hreg]
  show login_lookup (pyLower email :: dir) email2 = some (pyLower email)
  rw [login_lookup, hcase]
  simp

/-- Witness for the amended C9: register `"A@B.com"`, then look up with
`"a@b.COM"`; the stored user `"a@b.com"` is found. -/
theorem email_case_insensitive_auth_witness :
    pyStrip (pyLower "A@B.com".toList) = pyLower "A@B.com".toList ∧
      pyLower "a@b.COM".toList = pyLower "A@B.com".toList ∧
      (register [] "n".toList "A@B.com".toList "p".toList "p".toList).1 =
        RegOutcome.created ∧
      login_lookup (register [] "n".toList "A@B.com".toList "p".toList "p".toList).2
          "a@b.COM".toList = some (pyLower "A@B.com".toList) :=
  ⟨by decide, by decide,
    email_case_insensitive_auth [] "n".toList "A@B.com".toList "p".toList "p".toList
      "a@b.COM".toList (by decide) (by decide) (by decide) rfl (by decide)
      (by decide) (by decide)⟩
